import Mathlib

/-!
Shallow embedding of the Watchlog RUM React SDK pipeline (src/index.tsx):
identity/session management, sampling, the event queue with byte-cap
backpressure, the flush/transport scheduler, event construction/dispatch,
and the public API.  Browser-supplied nondeterminism (clock, randomness,
serialized byte sizes, storage availability, beacon capability) is passed
in explicitly through an `Env` record; module-level mutable state
(`current`, localStorage, the pending setters, the initial-page-view
flags) and externally observable effects (transport attempts, timer
creations, sampling draws) live in a `World` record that every operation
threads through.  A JavaScript function that may throw is embedded as a
Lean function into `Except Unit`; code paths that catch exceptions are
embedded by handling the `Except.error` case, and code paths that let an
exception escape return `Except.error` themselves.
-/

namespace WatchlogRum

/-- Default values from the constants section of src/index.tsx. -/
def DEFAULT_SAMPLE_RATE : ℚ := 1 / 10

def DEFAULT_BATCH_MAX : Nat := 50

def DEFAULT_FLUSH_INTERVAL : Nat := 5000

def DEFAULT_MAX_QUEUE_BYTES : Nat := 250 * 1024

def DEFAULT_SESSION_TTL : Int := 30 * 60 * 1000

/-- The persisted session record `{ id, sampled, last }`. -/
structure SessionRec where
  id : String
  sampled : Bool
  last : Int
deriving Repr, DecidableEq

/-- The state of the `wl_session_v1` localStorage entry: absent, present
but not parseable as JSON (JSON.parse throws), or parseable into a
session record. -/
inductive StoredSession where
  | absent : StoredSession
  | corrupt : StoredSession
  | parsed : SessionRec → StoredSession
deriving Repr, DecidableEq

/-- Event type tags (`RumEventType`). -/
inductive RumEventType where
  | page_view
  | custom
  | error
  | web_vital
  | resource
  | network
  | long_task
deriving Repr, DecidableEq

/-- The user record set by `identify` (`{ id, ...traits }`). -/
structure UserRec where
  id : String
  traits : List (String × String)
deriving Repr, DecidableEq

/-- The context snapshot captured synchronously by `baseContext` at event
construction time (the fields the pipeline itself controls: page path,
normalized path, user, and the ambient extra attributes). -/
structure BaseContext where
  path : String
  normalizedPath : Option String
  user : Option UserRec
  extra : List (String × String)
deriving Repr, DecidableEq

/-- An event envelope: `{ type, ts, sessionId, deviceId, seq, context }`
plus the name/data of custom events and the data tag of the others. -/
structure RumEvent where
  type : RumEventType
  name : String
  data : Option String
  ts : Int
  sessionId : String
  deviceId : String
  seq : Nat
  context : BaseContext
deriving Repr, DecidableEq

/-- Result of one invocation of the `beforeSend` hook: it may throw
(error), return null (none), or return a (possibly transformed) event. -/
abbrev HookResult := Except Unit (Option RumEvent)

/-- Fully-resolved configuration (`RumConfigWithDefaults`), restricted to
the fields the pipeline core reads.  `beforeSend` and `getNormalizedPath`
are embedded as possibly-throwing functions. -/
structure RumConfig where
  endpoint : Option String
  apiKey : Option String
  userId : Option String
  sampleRate : ℚ
  batchMax : Nat
  flushInterval : Nat
  maxQueueBytes : Nat
  sessionTtlMs : Int
  autoTrackInitialView : Bool
  beforeSend : Option (RumEvent → HookResult)
  getNormalizedPath : Option (String → Except Unit String)

/-- Caller-supplied configuration (`RumConfig`), every field optional. -/
structure RumConfigInput where
  endpoint : Option String := none
  apiKey : Option String := none
  userId : Option String := none
  sampleRate : Option ℚ := none
  batchMax : Option Nat := none
  flushInterval : Option Nat := none
  maxQueueBytes : Option Nat := none
  sessionTtlMs : Option Int := none
  autoTrackInitialView : Option Bool := none
  beforeSend : Option (RumEvent → HookResult) := none
  getNormalizedPath : Option (String → Except Unit String) := none

/-- The pipeline's `InternalState` (the value of the module-level
`current` when non-null).  `unsubCount` counts the registered teardown
callbacks in `unsubscribers`. -/
structure InternalState where
  config : RumConfig
  deviceId : String
  sessionId : String
  sampled : Bool
  seq : Nat
  queue : List RumEvent
  queueBytes : Nat
  flushTimer : Bool
  pageCtxExtra : List (String × String)
  user : Option UserRec
  unsubCount : Nat

/-- Which transport channel a flush used for a batch. -/
inductive Transport where
  | beacon
  | fetchKeepAlive
deriving Repr, DecidableEq

/-- The outbound payload envelope assembled by `flushQueue` (the fields
the pipeline computes; sdk name/version are constants). -/
structure Payload where
  apiKey : Option String
  sessionId : String
  deviceId : String
  sentAt : Int
  events : List RumEvent
deriving Repr, DecidableEq

/-- One observed transport attempt: which channel, carrying which
payload. -/
structure Attempt where
  via : Transport
  payload : Payload
deriving Repr, DecidableEq

/-- Browser/environment inputs consumed by the pipeline: the clock, the
fresh ids and uniform random draw used when new identity is created,
whether localStorage is unavailable (throws), the current pathname, the
serialized-byte-size oracle for events (`new Blob([JSON.stringify(e)]).size`),
and the beacon capability (available / raises when called). -/
structure Env where
  nowMs : Int
  freshSessionId : String
  freshDeviceId : String
  rand : ℚ
  storageFails : Bool
  pathname : String
  sz : RumEvent → Nat
  beaconAvailable : Bool
  beaconThrows : Bool

/-- The world: the module-level mutable state of src/index.tsx
(`current`, the two localStorage entries, `hasSentInitialPV`,
`routeManifestReady`, the pending setters) together with the externally
observable effect log (transport attempts, the stream of events drained
out of the queue — each drained batch recorded once, however many
transport channels were then attempted for it —, number of flush interval
timers created, number of Bernoulli sampling draws consumed, whether the
deferred initial-page-view poll/timeout pair was armed). -/
structure World where
  cur : Option InternalState
  sessionStorage : StoredSession
  deviceStorage : Option String
  attempts : List Attempt
  drained : List RumEvent
  timersCreated : Nat
  drawsUsed : Nat
  hasSentInitialPV : Bool
  routeManifestReady : Bool
  pendingNormalizer : Option (String → Except Unit String)
  deferredInitialPV : Bool

/-- Embedding of `applyDefaults`: merge caller overrides over the fixed defaults
(`??` chains), consulting the pending path normalizer. -/
def applyDefaults (cfg : RumConfigInput) (pendingNorm : Option (String → Except Unit String)) : RumConfig :=
  { endpoint := cfg.endpoint
    apiKey := cfg.apiKey
    userId := cfg.userId
    sampleRate := cfg.sampleRate.getD DEFAULT_SAMPLE_RATE
    batchMax := cfg.batchMax.getD DEFAULT_BATCH_MAX
    flushInterval := cfg.flushInterval.getD DEFAULT_FLUSH_INTERVAL
    maxQueueBytes := cfg.maxQueueBytes.getD DEFAULT_MAX_QUEUE_BYTES
    sessionTtlMs := cfg.sessionTtlMs.getD DEFAULT_SESSION_TTL
    autoTrackInitialView := cfg.autoTrackInitialView.getD true
    beforeSend := cfg.beforeSend
    getNormalizedPath :=
      match cfg.getNormalizedPath with
      | some f => some f
      | none => pendingNorm }

/-- Embedding of `getOrCreateDeviceId`: read the persisted device id; on miss generate
and persist a fresh one; on storage failure return a fresh id without
persisting.  Returns the id and the updated world. -/
def getOrCreateDeviceId (env : Env) (w : World) : String × World :=
  if env.storageFails then
    (env.freshDeviceId, w)
  else
    match w.deviceStorage with
    | some fromLs => (fromLs, w)
    | none => (env.freshDeviceId, { w with deviceStorage := some env.freshDeviceId })

/-- Embedding of `loadOrCreateSession(sampleRate, ttlMs)`: reuse a parseable persisted
session whose age is below the TTL, refreshing and re-persisting `last`;
otherwise (absent, corrupt, expired, or storage failure) create a fresh
session with a new Bernoulli draw (`Math.random() < sampleRate`), persisting
it unless storage failed.  `drawsUsed` counts the draws consumed. -/
def loadOrCreateSession (env : Env) (sampleRate : ℚ) (ttlMs : Int) (w : World) : SessionRec × World :=
  if env.storageFails then
    ({ id := env.freshSessionId, sampled := decide (env.rand < sampleRate), last := env.nowMs },
     { w with drawsUsed := w.drawsUsed + 1 })
  else
    match w.sessionStorage with
    | StoredSession.parsed v =>
      if env.nowMs - v.last < ttlMs then
        let updated : SessionRec := { v with last := env.nowMs }
        (updated, { w with sessionStorage := StoredSession.parsed updated })
      else
        let v2 : SessionRec :=
          { id := env.freshSessionId, sampled := decide (env.rand < sampleRate), last := env.nowMs }
        (v2, { w with sessionStorage := StoredSession.parsed v2, drawsUsed := w.drawsUsed + 1 })
    | _ =>
      let v2 : SessionRec :=
        { id := env.freshSessionId, sampled := decide (env.rand < sampleRate), last := env.nowMs }
      (v2, { w with sessionStorage := StoredSession.parsed v2, drawsUsed := w.drawsUsed + 1 })

/-- Embedding of `refreshSessionActivity`: bump `last` on the persisted session; no-op
when the entry is absent, unparseable (the thrown parse error is caught),
or storage is unavailable. -/
def refreshSessionActivity (env : Env) (w : World) : World :=
  if env.storageFails then w
  else
    match w.sessionStorage with
    | StoredSession.parsed v =>
      { w with sessionStorage := StoredSession.parsed { v with last := env.nowMs } }
    | _ => w

/-- Embedding of `nextSeq`: pre-increment the sequence counter and return the new
value (`current.seq += 1`); 0 when no pipeline is running. -/
def nextSeq (cur : Option InternalState) : Nat :=
  match cur with
  | some st => st.seq + 1
  | none => 0

/-- Embedding of `safeJsonSize(bytes)`: true when `bytes` fits under the configured
byte cap (falling back to the default cap when no pipeline runs). -/
def safeJsonSize (cur : Option InternalState) (bytes : Nat) : Bool :=
  match cur with
  | some st => bytes ≤ st.config.maxQueueBytes
  | none => bytes ≤ DEFAULT_MAX_QUEUE_BYTES

/-- Embedding of `computeNormalizedPath(pathname)`: when a `getNormalizedPath`
function is configured, call it inside try/catch and return its result
on normal return; on absence or a thrown exception fall back to the
literal pathname, with `"/"` for the empty pathname. -/
def computeNormalizedPath (cur : Option InternalState) (pathname : String) : String :=
  let fallback := if pathname = "" then "/" else pathname
  match cur with
  | some st =>
    match st.config.getNormalizedPath with
    | some f =>
      match f pathname with
      | Except.ok s => s
      | Except.error _ => fallback
    | none => fallback
  | none => fallback

/-- Embedding of `baseContext()`: the synchronously captured context snapshot (page
path, normalized path, the current user and ambient extra attributes). -/
def baseContext (env : Env) (cur : Option InternalState) : BaseContext :=
  { path := env.pathname
    normalizedPath :=
      if env.pathname = "" then none else some (computeNormalizedPath cur env.pathname)
    user := match cur with | some st => st.user | none => none
    extra := match cur with | some st => st.pageCtxExtra | none => [] }

/-- JavaScript object spread `{...a, ...b}`: entries of `a` whose key is
not overridden by `b`, then the entries of `b`. -/
def mergeKV (a b : List (String × String)) : List (String × String) :=
  a.filter (fun p => ¬ (b.map Prod.fst).contains p.1) ++ b

/-- The payload envelope `flushQueue` assembles from the running state
and the clock. -/
def mkPayload (env : Env) (st : InternalState) : Payload :=
  { apiKey := st.config.apiKey
    sessionId := st.sessionId
    deviceId := st.deviceId
    sentAt := env.nowMs
    events := st.queue }

/-- Embedding of `flushQueue(useBeacon)`: a no-op on a missing pipeline or empty
queue; otherwise assemble the payload, reset the queue and byte counter
to empty BEFORE any transport runs, then: in beacon mode with the beacon
capability available, attempt the beacon send and return on normal
return; if the beacon call raises, the exception is caught and control
falls through to the keep-alive fetch attempt (whose own failure is also
swallowed). -/
def flushQueue (useBeacon : Bool) (env : Env) (w : World) : World :=
  match w.cur with
  | none => w
  | some st =>
    if st.queue.isEmpty then w
    else
      let payload : Payload := mkPayload env st
      let st2 := { st with queue := [], queueBytes := 0 }
      let w2 := { w with cur := some st2, drained := w.drained ++ st.queue }
      if useBeacon ∧ env.beaconAvailable then
        if env.beaconThrows then
          { w2 with attempts := w2.attempts ++
              [{ via := Transport.beacon, payload := payload },
               { via := Transport.fetchKeepAlive, payload := payload }] }
        else
          { w2 with attempts := w2.attempts ++ [{ via := Transport.beacon, payload := payload }] }
      else
        { w2 with attempts := w2.attempts ++ [{ via := Transport.fetchKeepAlive, payload := payload }] }

/-- Embedding of `enqueue(event)`: a no-op without a running sampled pipeline;
otherwise compute the event's serialized size, force a flush when
appending would exceed the byte cap, drop the event if it still would
not fit, else append it, add its bytes, and flush when the queue length
reaches the batch threshold. -/
def enqueue (env : Env) (ev : RumEvent) (w : World) : World :=
  match w.cur with
  | none => w
  | some st =>
    if ¬ st.sampled then w
    else
      let bytes := env.sz ev
      let w1 :=
        if ¬ safeJsonSize (some st) (st.queueBytes + bytes) then flushQueue false env w else w
      match w1.cur with
      | none => w1
      | some st1 =>
        if ¬ safeJsonSize (some st1) (st1.queueBytes + bytes) then w1
        else
          let st2 := { st1 with queue := st1.queue ++ [ev], queueBytes := st1.queueBytes + bytes }
          let w2 := { w1 with cur := some st2 }
          if st2.config.batchMax ≤ st2.queue.length then flushQueue false env w2 else w2

/-- Embedding of `dispatch(ev)`: the single choke point.  Apply the configured
`beforeSend` hook WITHOUT a surrounding try/catch — a thrown exception
propagates to the caller (`Except.error`); a null result drops the event
with no side effect; otherwise the (possibly transformed) event is
enqueued. -/
def dispatch (env : Env) (ev : RumEvent) (w : World) : Except Unit World :=
  match w.cur with
  | none => Except.ok w
  | some st =>
    match st.config.beforeSend with
    | none => Except.ok (enqueue env ev w)
    | some hook =>
      match hook ev with
      | Except.error e => Except.error e
      | Except.ok none => Except.ok w
      | Except.ok (some transformed) => Except.ok (enqueue env transformed w)

/-- Embedding of `publicAPI.trackPageView(extra, navType)`: no-op without a running
sampled pipeline; otherwise snapshot the context (merging `extra` over
it), stamp the envelope with the next sequence number, dispatch, and set
`hasSentInitialPV` after a successful dispatch.  A `beforeSend`
exception escapes to the caller. -/
def trackPageView (env : Env) (extra : Option (List (String × String))) (navType : Option String) (w : World) : Except Unit World :=
  match w.cur with
  | none => Except.ok w
  | some st =>
    if ¬ st.sampled then Except.ok w
    else
      let ctx0 := baseContext env (some st)
      let ctx :=
        match extra with
        | none => ctx0
        | some e => { ctx0 with extra := mergeKV ctx0.extra e }
      let st1 := { st with seq := st.seq + 1 }
      let ev : RumEvent :=
        { type := RumEventType.page_view, name := "", data := navType, ts := env.nowMs
          sessionId := st.sessionId, deviceId := st.deviceId, seq := st1.seq, context := ctx }
      (dispatch env ev { w with cur := some st1 }).map
        (fun w2 => { w2 with hasSentInitialPV := true })

/-- Embedding of `publicAPI.trackEvent(name, data)`: no-op without a running sampled
pipeline; otherwise build a custom event with the next sequence number
and dispatch it. -/
def trackEvent (env : Env) (name : String) (data : Option String) (w : World) : Except Unit World :=
  match w.cur with
  | none => Except.ok w
  | some st =>
    if ¬ st.sampled then Except.ok w
    else
      let st1 := { st with seq := st.seq + 1 }
      let ev : RumEvent :=
        { type := RumEventType.custom, name := name, data := data, ts := env.nowMs
          sessionId := st.sessionId, deviceId := st.deviceId, seq := st1.seq
          context := baseContext env (some st) }
      dispatch env ev { w with cur := some st1 }

/-- Embedding of `publicAPI.trackError(error, source)`: no-op without a running
sampled pipeline; otherwise build an error event with the next sequence
number and dispatch it (the message carried in the data slot). -/
def trackError (env : Env) (message : String) (w : World) : Except Unit World :=
  match w.cur with
  | none => Except.ok w
  | some st =>
    if ¬ st.sampled then Except.ok w
    else
      let st1 := { st with seq := st.seq + 1 }
      let ev : RumEvent :=
        { type := RumEventType.error, name := "", data := some message, ts := env.nowMs
          sessionId := st.sessionId, deviceId := st.deviceId, seq := st1.seq
          context := baseContext env (some st) }
      dispatch env ev { w with cur := some st1 }

/-- Embedding of `publicAPI.identify(userId, traits)`: mutate the current user record
in place; no-op when no pipeline runs. -/
def identify (userId : String) (traits : List (String × String)) (w : World) : World :=
  match w.cur with
  | none => w
  | some st => { w with cur := some { st with user := some { id := userId, traits := traits } } }

/-- Embedding of `publicAPI.setContext(extra)`: spread the new attributes over the
ambient extra context; no-op when no pipeline runs. -/
def setContext (extra : List (String × String)) (w : World) : World :=
  match w.cur with
  | none => w
  | some st => { w with cur := some { st with pageCtxExtra := mergeKV st.pageCtxExtra extra } }

/-- Embedding of `publicAPI.flush()`: `flushQueue()` without beacon mode. -/
def apiFlush (env : Env) (w : World) : World :=
  flushQueue false env w

/-- Embedding of `publicAPI.shutdown()`: cancel the flush timer, run every teardown
callback (each inside try/catch), and clear `current`. -/
def shutdown (w : World) : World :=
  match w.cur with
  | none => { w with cur := none }
  | some _ => { w with cur := none }

/-- Embedding of `publicAPI.getSessionInfo()`: the session id, device id and sampled
flag, or null when no pipeline runs. -/
def getSessionInfo (w : World) : Option (String × String × Bool) :=
  match w.cur with
  | none => none
  | some st => some (st.sessionId, st.deviceId, st.sampled)

/-- The `beforeunload` handler installed by `setupLifecycle`: refresh
session activity, then flush with beacon mode forced. -/
def onUnload (env : Env) (w : World) : World :=
  flushQueue true env (refreshSessionActivity env w)

/-- The `visibilitychange` handler installed by `setupLifecycle`, in the
case `document.visibilityState === "hidden"`: flush with beacon mode
forced (the handler does NOT refresh session activity). -/
def onVisibilityHidden (env : Env) (w : World) : World :=
  flushQueue true env w

/-- Embedding of `setupLifecycle`: registers the unload handler, the visibility
handler, and seven user-activity listeners; its state effect is the
teardown registrations (7 activity listeners + beforeunload). -/
def setupLifecycle (w : World) : World :=
  match w.cur with
  | none => w
  | some st => { w with cur := some { st with unsubCount := st.unsubCount + 8 } }

/-- Embedding of `attachErrorHandlers`: registers the global error and
unhandledrejection listeners (two teardown registrations). -/
def attachErrorHandlers (w : World) : World :=
  match w.cur with
  | none => w
  | some st => { w with cur := some { st with unsubCount := st.unsubCount + 2 } }

/-- Embedding of `scheduleFlush`: create the periodic flush interval (counted in
`timersCreated`) and record it in `flushTimer`. -/
def scheduleFlush (w : World) : World :=
  match w.cur with
  | none => w
  | some st =>
    { w with cur := some { st with flushTimer := true }, timersCreated := w.timersCreated + 1 }

/-- The module-level `publicAPI` handle returned by `startRum`. -/
inductive RumHandle where
  | publicAPI
deriving Repr, DecidableEq

/-- The first-start part of `startRum(config)`: resolve the
configuration, load device identity and session (one sampling draw at
most), build the internal state, set up lifecycle/error collectors when
sampled, and schedule the flush timer. -/
def startRumBase (env : Env) (cfg : RumConfigInput) (w : World) : World :=
  let c := applyDefaults cfg w.pendingNormalizer
  let (deviceId, w1) := getOrCreateDeviceId env w
  let (sess, w2) := loadOrCreateSession env c.sampleRate c.sessionTtlMs w1
  let st : InternalState :=
    { config := c, deviceId := deviceId, sessionId := sess.id, sampled := sess.sampled
      seq := 0, queue := [], queueBytes := 0, flushTimer := false
      pageCtxExtra := []
      user := match c.userId with | some uid => some { id := uid, traits := [] } | none => none
      unsubCount := 0 }
  let w3 := { w2 with cur := some st }
  let w4 := if st.sampled then attachErrorHandlers (setupLifecycle w3) else w3
  scheduleFlush w4

/-- Embedding of `startRum(config)`: idempotent — when a pipeline is already running,
return the existing public handle with no state change at all.  Otherwise
run the base startup above and fire the initial page view synchronously
when the route manifest is ready or a normalizer is configured, deferring
it to the poll/timeout race otherwise.  (The optional resource/long-task/
web-vitals observers registered at startup have no synchronous effect on
the queue/transport state modelled here.) -/
def startRum (env : Env) (cfg : RumConfigInput) (w : World) : Except Unit (World × RumHandle) :=
  match w.cur with
  | some _ => Except.ok (w, RumHandle.publicAPI)
  | none =>
    let w5 := startRumBase env cfg w
    match w5.cur with
    | none => Except.ok (w5, RumHandle.publicAPI)
    | some st =>
      if st.sampled ∧ st.config.autoTrackInitialView then
        if w5.routeManifestReady ∨ st.config.getNormalizedPath.isSome then
          (trackPageView env none none w5).map (fun w6 => (w6, RumHandle.publicAPI))
        else
          Except.ok ({ w5 with deferredInitialPV := true }, RumHandle.publicAPI)
      else
        Except.ok (w5, RumHandle.publicAPI)

/-- One public-API interaction with a running pipeline, used to quantify
over call sequences. -/
inductive Op where
  | opTrackPageView : Op
  | opTrackEvent : String → Option String → Op
  | opTrackError : String → Op
  | opIdentify : String → List (String × String) → Op
  | opSetContext : List (String × String) → Op
  | opFlush : Op
  | opTimerTick : Op
  | opPageHide : Op
  | opUnload : Op

/-- Run one interaction (the flush-timer tick runs `flushQueue()` like
`flush`). -/
def runOp (env : Env) (op : Op) (w : World) : Except Unit World :=
  match op with
  | Op.opTrackPageView => trackPageView env none none w
  | Op.opTrackEvent name data => trackEvent env name data w
  | Op.opTrackError msg => trackError env msg w
  | Op.opIdentify uid traits => Except.ok (identify uid traits w)
  | Op.opSetContext extra => Except.ok (setContext extra w)
  | Op.opFlush => Except.ok (apiFlush env w)
  | Op.opTimerTick => Except.ok (flushQueue false env w)
  | Op.opPageHide => Except.ok (onVisibilityHidden env w)
  | Op.opUnload => Except.ok (onUnload env w)

/-- Run a sequence of interactions, propagating any escaped exception. -/
def runOps (env : Env) (ops : List Op) (w : World) : Except Unit World :=
  match ops with
  | [] => Except.ok w
  | op :: rest =>
    match runOp env op w with
    | Except.error e => Except.error e
    | Except.ok w1 => runOps env rest w1

/-- The buffered byte counter of the running pipeline (0 when none). -/
def queueBytesOf (w : World) : Nat :=
  match w.cur with
  | some st => st.queueBytes
  | none => 0

/-- The byte cap of the running pipeline (the default cap when none). -/
def byteCapOf (w : World) : Nat :=
  match w.cur with
  | some st => st.config.maxQueueBytes
  | none => DEFAULT_MAX_QUEUE_BYTES

/-- All events transported so far, in emission order (the concatenation
of the event lists of all transport attempts). -/
def transportedEvents (w : World) : List RumEvent :=
  (w.attempts.map Attempt.payload).flatMap Payload.events

/-- Sequence numbers of the transported events, in emission order. -/
def transportedSeqs (w : World) : List Nat :=
  (transportedEvents w).map RumEvent.seq

/-- The queue length of the running pipeline (0 when none). -/
def queueLenOf (w : World) : Nat :=
  match w.cur with
  | some st => st.queue.length
  | none => 0

/-- Sequence numbers still buffered in the queue, in order. -/
def queueSeqs (w : World) : List Nat :=
  match w.cur with
  | some st => st.queue.map RumEvent.seq
  | none => []

/-- Sequence numbers of the events drained out of the queue, in drain
order (each drained batch counted once, however many transport channels
were attempted for it). -/
def drainedSeqs (w : World) : List Nat :=
  w.drained.map RumEvent.seq

/-- Drained then buffered sequence numbers, in emission order. -/
def emittedSeqsAll (w : World) : List Nat :=
  drainedSeqs w ++ queueSeqs w

/-! ## Concrete fixtures used by witnesses, counterexamples and example
scenarios. -/

/-- A constant serialized-size oracle: every event serializes to 100
bytes. -/
def szConst : RumEvent → Nat := fun _ => 100

/-- A concrete browser environment. -/
def envDemo : Env :=
  { nowMs := 1000, freshSessionId := "sess-1", freshDeviceId := "dev-1", rand := 1 / 2
    storageFails := false, pathname := "/home", sz := szConst
    beaconAvailable := true, beaconThrows := false }

/-- Embedding of `envDemo` with the uniform draw replaced. -/
def envR (rand : ℚ) : Env := { envDemo with rand := rand }

/-- The pristine world before any startup: no pipeline, empty storage,
no observed effects. -/
def world0 : World :=
  { cur := none, sessionStorage := StoredSession.absent, deviceStorage := none
    attempts := [], drained := [], timersCreated := 0, drawsUsed := 0
    hasSentInitialPV := false, routeManifestReady := false
    pendingNormalizer := none, deferredInitialPV := false }

/-- The fully-defaulted configuration. -/
def cfgDefault : RumConfig := applyDefaults {} none

/-- A concrete running internal state with one buffered event. -/
def evDemo : RumEvent :=
  { type := RumEventType.custom, name := "a", data := none, ts := 1000
    sessionId := "sess-1", deviceId := "dev-1", seq := 1
    context := { path := "/home", normalizedPath := some "/home", user := none, extra := [] } }

/-- A running pipeline state holding `evDemo` in its queue. -/
def stQueued : InternalState :=
  { config := cfgDefault, deviceId := "dev-1", sessionId := "sess-1", sampled := true
    seq := 1, queue := [evDemo], queueBytes := 100, flushTimer := true
    pageCtxExtra := [], user := none, unsubCount := 10 }

/-- A world whose pipeline holds one queued event, over a persisted
session whose `last` is stale (0, against `envDemo.nowMs = 1000`). -/
def wQueued : World :=
  { world0 with
      cur := some stQueued
      sessionStorage := StoredSession.parsed { id := "sess-1", sampled := true, last := 0 }
      deviceStorage := some "dev-1" }

/-! ## C5 — session load/renewal -/

/-- C5: `loadOrCreateSession(sampleRate, ttl)` reuses a parseable
persisted session that is within TTL, keeping its id and sampled flag,
only refreshing and re-persisting `last`, and consuming no sampling
draw; in every other case (storage failure, absent entry, unparseable
entry, or expired entry) it returns a fresh session with the new id and
a new Bernoulli draw, consuming exactly one draw.  The function is total
(the embedding of "never throws"). -/
theorem loadOrCreateSession_spec (env : Env) (sampleRate : ℚ) (ttl : Int) (w : World) :
    (∀ v : SessionRec, env.storageFails = false →
      w.sessionStorage = StoredSession.parsed v → env.nowMs - v.last < ttl →
      (loadOrCreateSession env sampleRate ttl w).1 =
          { id := v.id, sampled := v.sampled, last := env.nowMs } ∧
        (loadOrCreateSession env sampleRate ttl w).2.sessionStorage =
          StoredSession.parsed { id := v.id, sampled := v.sampled, last := env.nowMs } ∧
        (loadOrCreateSession env sampleRate ttl w).2.drawsUsed = w.drawsUsed) ∧
    ((env.storageFails = true ∨ w.sessionStorage = StoredSession.absent ∨
        w.sessionStorage = StoredSession.corrupt ∨
        (∃ v : SessionRec, w.sessionStorage = StoredSession.parsed v ∧
          ¬ env.nowMs - v.last < ttl)) →
      (loadOrCreateSession env sampleRate ttl w).1 =
          { id := env.freshSessionId, sampled := decide (env.rand < sampleRate)
            last := env.nowMs } ∧
        (loadOrCreateSession env sampleRate ttl w).2.drawsUsed = w.drawsUsed + 1) := by
  constructor
  · intro v hsf hst hlt
    simp [loadOrCreateSession, hsf, hst, hlt]
  · rintro (hsf | hab | hco | ⟨v, hst, hge⟩)
    · simp [loadOrCreateSession, hsf]
    · rcases hfail : env.storageFails with _ | _
      · simp [loadOrCreateSession, hfail, hab]
      · simp [loadOrCreateSession, hfail]
    · rcases hfail : env.storageFails with _ | _
      · simp [loadOrCreateSession, hfail, hco]
      · simp [loadOrCreateSession, hfail]
    · rcases hfail : env.storageFails with _ | _
      · simp [loadOrCreateSession, hfail, hst, hge]
      · simp [loadOrCreateSession, hfail]

/-- Witness for C5 at concrete inputs: a live persisted session is
reused with `last` refreshed and no draw consumed, and an expired one is
replaced by a fresh session consuming one draw. -/
theorem loadOrCreateSession_spec_witness :
    ((loadOrCreateSession envDemo 1 10000
        { world0 with sessionStorage := StoredSession.parsed { id := "s0", sampled := true, last := 900 } }).1 =
      { id := "s0", sampled := true, last := 1000 }) ∧
    ((loadOrCreateSession envDemo 1 500
          { world0 with sessionStorage := StoredSession.parsed { id := "s-old", sampled := false, last := 0 } }).1 =
        { id := "sess-1", sampled := true, last := 1000 } ∧
      (loadOrCreateSession envDemo 1 500
          { world0 with sessionStorage := StoredSession.parsed { id := "s-old", sampled := false, last := 0 } }).2.drawsUsed = 1) := by
  refine ⟨((loadOrCreateSession_spec envDemo 1 10000
      { world0 with sessionStorage := StoredSession.parsed { id := "s0", sampled := true, last := 900 } }).1
      { id := "s0", sampled := true, last := 900 } (by rfl) (by rfl) (by decide)).1, ?_, ?_⟩
  · exact (((loadOrCreateSession_spec envDemo 1 500
      { world0 with sessionStorage := StoredSession.parsed { id := "s-old", sampled := false, last := 0 } }).2
      (Or.inr (Or.inr (Or.inr ⟨{ id := "s-old", sampled := false, last := 0 }, by rfl, by decide⟩)))).1).trans
      (by norm_num [envDemo])
  · exact ((loadOrCreateSession_spec envDemo 1 500
      { world0 with sessionStorage := StoredSession.parsed { id := "s-old", sampled := false, last := 0 } }).2
      (Or.inr (Or.inr (Or.inr ⟨{ id := "s-old", sampled := false, last := 0 }, by rfl, by decide⟩)))).2

/-! ## C9 — normalized-path computation -/

/-- C9: `computeNormalizedPath` uses the configured `getNormalizedPath`
result when the function returns normally; when the function throws,
when it is absent, or when no pipeline runs, the literal pathname is
returned (with `"/"` for the empty pathname).  Totality of the Lean
function embeds "no exception ever propagates out". -/
theorem computeNormalizedPath_spec (cur : Option InternalState) (p : String) :
    (∀ st f s, cur = some st → st.config.getNormalizedPath = some f →
      f p = Except.ok s → computeNormalizedPath cur p = s) ∧
    (∀ st f e, cur = some st → st.config.getNormalizedPath = some f →
      f p = Except.error e →
      computeNormalizedPath cur p = (if p = "" then "/" else p)) ∧
    (∀ st, cur = some st → st.config.getNormalizedPath = none →
      computeNormalizedPath cur p = (if p = "" then "/" else p)) ∧
    (cur = none → computeNormalizedPath cur p = (if p = "" then "/" else p)) := by
  refine ⟨?_, ?_, ?_, ?_⟩
  · intro st f s hcur hf hok
    simp [computeNormalizedPath, hcur, hf, hok]
  · intro st f e hcur hf herr
    simp [computeNormalizedPath, hcur, hf, herr]
  · intro st hcur hf
    simp [computeNormalizedPath, hcur, hf]
  · intro hcur
    simp [computeNormalizedPath, hcur]

/-- A normalizer that maps `"/users/7"` to a route template and throws
on any other path. -/
def normDemo : String → Except Unit String :=
  fun p => if p = "/users/7" then Except.ok "/users/:id" else Except.error ()

/-- Embedding of `stQueued` reconfigured with `normDemo` installed. -/
def stWithNorm : InternalState :=
  { stQueued with config := { cfgDefault with getNormalizedPath := some normDemo } }

/-- Witness for C9 at concrete inputs: the configured normalizer's
result is used on normal return; on a thrown exception or an absent
normalizer the literal path comes back; the empty path yields `"/"`. -/
theorem computeNormalizedPath_spec_witness :
    computeNormalizedPath (some stWithNorm) "/users/7" = "/users/:id" ∧
    computeNormalizedPath (some stWithNorm) "/other" = "/other" ∧
    computeNormalizedPath (some stQueued) "/other" = "/other" ∧
    computeNormalizedPath none "" = "/" := by
  refine ⟨?_, ?_, ?_, ?_⟩
  · exact (computeNormalizedPath_spec (some stWithNorm) "/users/7").1 stWithNorm normDemo
      "/users/:id" rfl rfl (by rfl)
  · exact ((computeNormalizedPath_spec (some stWithNorm) "/other").2.1 stWithNorm normDemo
      () rfl rfl (by rfl)).trans (by decide)
  · exact ((computeNormalizedPath_spec (some stQueued) "/other").2.2.1 stQueued rfl rfl).trans
      (by decide)
  · exact ((computeNormalizedPath_spec none "").2.2.2 rfl).trans (by decide)

/-! ## C8 — idempotent startup -/

/-- C8: calling `startRum` while a pipeline is already running returns
the module-level public handle and leaves the entire world untouched: in
particular no flush timer is created, no sampling draw is consumed, and
no storage or pipeline state changes. -/
theorem startRum_idempotent (env : Env) (cfg : RumConfigInput) (w : World)
    (st : InternalState) (h : w.cur = some st) :
    startRum env cfg w = Except.ok (w, RumHandle.publicAPI) := by
  simp [startRum, h]

/-- Witness for C8 at a concrete running world. -/
theorem startRum_idempotent_witness :
    startRum envDemo {} wQueued = Except.ok (wQueued, RumHandle.publicAPI) :=
  startRum_idempotent envDemo {} wQueued stQueued rfl

/-! ## C10 — public API before startup / after shutdown -/

/-- C10: with no running pipeline (never started, or after `shutdown`),
every public operation returns without an exception and without changing
any state, and `getSessionInfo` returns null. -/
theorem publicAPI_noop_when_not_started (env : Env) (w : World) (h : w.cur = none) :
    (∀ extra navType, trackPageView env extra navType w = Except.ok w) ∧
    (∀ name data, trackEvent env name data w = Except.ok w) ∧
    (∀ msg, trackError env msg w = Except.ok w) ∧
    (∀ uid traits, identify uid traits w = w) ∧
    (∀ extra, setContext extra w = w) ∧
    apiFlush env w = w ∧
    shutdown w = w ∧
    getSessionInfo w = none := by
  refine ⟨?_, ?_, ?_, ?_, ?_, ?_, ?_, ?_⟩
  · intro extra navType; simp [trackPageView, h]
  · intro name data; simp [trackEvent, h]
  · intro msg; simp [trackError, h]
  · intro uid traits; simp [identify, h]
  · intro extra; simp [setContext, h]
  · simp [apiFlush, flushQueue, h]
  · cases w with
    | mk cur ss ds at_ dr tc du hs rm pn dp => cases h; rfl
  · simp [getSessionInfo, h]

/-- Witness for C10 at the pristine world. -/
theorem publicAPI_noop_when_not_started_witness :
    trackEvent envDemo "a" none world0 = Except.ok world0 ∧
    apiFlush envDemo world0 = world0 ∧
    shutdown world0 = world0 ∧
    getSessionInfo world0 = none := by
  refine ⟨?_, ?_, ?_, ?_⟩
  · exact (publicAPI_noop_when_not_started envDemo world0 rfl).2.1 "a" none
  · exact (publicAPI_noop_when_not_started envDemo world0 rfl).2.2.2.2.2.1
  · exact (publicAPI_noop_when_not_started envDemo world0 rfl).2.2.2.2.2.2.1
  · exact (publicAPI_noop_when_not_started envDemo world0 rfl).2.2.2.2.2.2.2

/-! ## C2 — beacon-mode transport selection -/

/-- Embedding of `envDemo` but the beacon call raises when invoked. -/
def envBeaconThrow : Env := { envDemo with beaconThrows := true }

/-- Counterexample to C2: at a concrete running world with one queued
event, a beacon-mode flush whose beacon call raises DOES attempt the
keep-alive fetch path afterwards — two transport channels are used for
the one flush, so the batch is not simply lost and at most one channel
per flush is false. -/
theorem flushQueue_beacon_throw_falls_back_to_fetch :
    ((flushQueue true envBeaconThrow wQueued).attempts.map Attempt.via) =
      [Transport.beacon, Transport.fetchKeepAlive] := by
  rfl

/-- C2 amended: in beacon mode with the beacon capability available, a
flush of a non-empty queue attempts exactly the beacon channel when the
beacon call returns normally; when the beacon call raises, the exception
is caught and the keep-alive fetch channel IS attempted as a fallback
for the same (already drained) batch.  In both cases the queue and byte
counter are empty afterwards. -/
theorem flushQueue_beacon_transport (env : Env) (w : World) (st : InternalState)
    (hcur : w.cur = some st) (hne : st.queue ≠ []) (hav : env.beaconAvailable = true) :
    (env.beaconThrows = false →
      (flushQueue true env w).attempts =
        w.attempts ++ [{ via := Transport.beacon, payload := mkPayload env st }]) ∧
    (env.beaconThrows = true →
      (flushQueue true env w).attempts =
        w.attempts ++
          [{ via := Transport.beacon, payload := mkPayload env st },
           { via := Transport.fetchKeepAlive, payload := mkPayload env st }]) ∧
    (flushQueue true env w).cur = some { st with queue := [], queueBytes := 0 } := by
  have hq : st.queue.isEmpty = false := by
    simpa [List.isEmpty_iff] using hne
  refine ⟨?_, ?_, ?_⟩
  · intro hnt; simp [flushQueue, hcur, hq, hav, hnt]
  · intro ht; simp [flushQueue, hcur, hq, hav, ht]
  · cases hthrow : env.beaconThrows <;>
      simp [flushQueue, hcur, hq, hav, hthrow]

/-- Witness for C2's amended statement at concrete worlds: one beacon
attempt when the beacon call returns normally, beacon followed by fetch
when it raises. -/
theorem flushQueue_beacon_transport_witness :
    ((flushQueue true envDemo wQueued).attempts =
      [{ via := Transport.beacon, payload := mkPayload envDemo stQueued }]) ∧
    ((flushQueue true envBeaconThrow wQueued).attempts =
      [{ via := Transport.beacon, payload := mkPayload envBeaconThrow stQueued },
       { via := Transport.fetchKeepAlive, payload := mkPayload envBeaconThrow stQueued }]) := by
  constructor
  · exact ((flushQueue_beacon_transport envDemo wQueued stQueued rfl
      (by decide) rfl).1 rfl).trans (by rfl)
  · exact ((flushQueue_beacon_transport envBeaconThrow wQueued stQueued rfl
      (by decide) rfl).2.1 rfl).trans (by rfl)

/-! ## C7 — unload / page-hide behavior -/

/-- Counterexample to C7: at a concrete world whose persisted session has
a stale `last` (0, with the clock at 1000), the page-hide handler flushes
with beacon mode but does NOT refresh the persisted session's activity
timestamp: the stored record still carries `last = 0` afterwards, so
"refresh first, then flush" is false for the page-hide signal. -/
theorem pageHide_does_not_refresh_session :
    (onVisibilityHidden envDemo wQueued).sessionStorage =
        StoredSession.parsed { id := "sess-1", sampled := true, last := 0 } ∧
    envDemo.nowMs = 1000 ∧
    ((onVisibilityHidden envDemo wQueued).attempts.map Attempt.via) = [Transport.beacon] := by
  refine ⟨by rfl, by rfl, by rfl⟩

/-- C7 amended: on the unload signal the handler first refreshes the
persisted session's `last` to the current clock and then performs a
beacon-mode flush of the queued batch; on the page-hide signal the
handler performs only the beacon-mode flush, leaving the persisted
session untouched. -/
theorem lifecycle_flush_behavior (env : Env) (w : World) (st : InternalState) (v : SessionRec)
    (hcur : w.cur = some st) (hne : st.queue ≠ []) (hsf : env.storageFails = false)
    (hst : w.sessionStorage = StoredSession.parsed v) (hav : env.beaconAvailable = true)
    (hnt : env.beaconThrows = false) :
    (onUnload env w).sessionStorage =
        StoredSession.parsed { id := v.id, sampled := v.sampled, last := env.nowMs } ∧
    (onUnload env w).attempts =
        w.attempts ++ [{ via := Transport.beacon, payload := mkPayload env st }] ∧
    (onVisibilityHidden env w).sessionStorage = w.sessionStorage ∧
    (onVisibilityHidden env w).attempts =
        w.attempts ++ [{ via := Transport.beacon, payload := mkPayload env st }] := by
  have hq : st.queue.isEmpty = false := by
    simpa [List.isEmpty_iff] using hne
  have hrefresh : refreshSessionActivity env w =
      { w with sessionStorage :=
          StoredSession.parsed { id := v.id, sampled := v.sampled, last := env.nowMs } } := by
    simp [refreshSessionActivity, hsf, hst]
  refine ⟨?_, ?_, ?_, ?_⟩
  · simp [onUnload, hrefresh, flushQueue, hcur, hq, hav, hnt]
  · simp [onUnload, hrefresh, flushQueue, hcur, hq, hav, hnt, mkPayload]
  · simp [onVisibilityHidden, flushQueue, hcur, hq, hav, hnt]
  · simp [onVisibilityHidden, flushQueue, hcur, hq, hav, hnt, mkPayload]

/-- Witness for C7's amended statement at a concrete world: unload
refreshes the stale persisted `last` to 1000 and beacon-flushes; the
page-hide handler beacon-flushes with the stored record untouched. -/
theorem lifecycle_flush_behavior_witness :
    (onUnload envDemo wQueued).sessionStorage =
        StoredSession.parsed { id := "sess-1", sampled := true, last := 1000 } ∧
    (onUnload envDemo wQueued).attempts =
        [{ via := Transport.beacon, payload := mkPayload envDemo stQueued }] ∧
    (onVisibilityHidden envDemo wQueued).sessionStorage =
        StoredSession.parsed { id := "sess-1", sampled := true, last := 0 } := by
  refine ⟨?_, ?_, ?_⟩
  · exact ((lifecycle_flush_behavior envDemo wQueued stQueued
      { id := "sess-1", sampled := true, last := 0 } rfl (by decide) rfl rfl rfl rfl).1)
  · exact ((lifecycle_flush_behavior envDemo wQueued stQueued
      { id := "sess-1", sampled := true, last := 0 } rfl (by decide) rfl rfl rfl rfl).2.1).trans
      (by rfl)
  · exact ((lifecycle_flush_behavior envDemo wQueued stQueued
      { id := "sess-1", sampled := true, last := 0 } rfl (by decide) rfl rfl rfl rfl).2.2.1).trans
      (by rfl)

/-! ## C1 — a throwing beforeSend hook escapes dispatch -/

/-- A beforeSend hook that throws on every event. -/
def hookThrows : RumEvent → HookResult := fun _ => Except.error ()

/-- Configuration with full sampling and the throwing hook installed. -/
def cfgThrowingHook : RumConfigInput := { sampleRate := some 1, beforeSend := some hookThrows }

/-- C1 evaluated at the failing input: `dispatch` invokes `beforeSend`
with no surrounding try/catch, so after starting the pipeline with a
hook that throws, `trackEvent`, `trackError` and `trackPageView` all
propagate the hook's exception to their caller instead of catching it
inside `dispatch`. -/
theorem beforeSend_exception_escapes_to_caller :
    ((startRum (envR 0) cfgThrowingHook world0).bind
        (fun s => trackEvent (envR 0) "a" none s.1)) = Except.error () ∧
    ((startRum (envR 0) cfgThrowingHook world0).bind
        (fun s => trackError (envR 0) "boom" s.1)) = Except.error () ∧
    ((startRum (envR 0) cfgThrowingHook world0).bind
        (fun s => trackPageView (envR 0) none none s.1)) = Except.error () := by
  refine ⟨by rfl, by rfl, by rfl⟩

/-! ## C6 — batch-threshold flush scenario -/

/-- Configuration of the example scenario: full sampling, batch size 2. -/
def cfgC6 : RumConfigInput := { sampleRate := some 1, batchMax := some 2 }

/-- Start the pipeline and track the first custom event `"a"`. -/
def runC6a (rand : ℚ) : Except Unit World :=
  (startRum (envR rand) cfgC6 world0).bind (fun s => trackEvent (envR rand) "a" none s.1)

/-- Track the second custom event `"b"` after `runC6a`. -/
def runC6b (rand : ℚ) : Except Unit World :=
  (runC6a rand).bind (fun w => trackEvent (envR rand) "b" none w)

/-- C6: with `sampleRate = 1.0` (any uniform draw below 1 samples the
session) and `batchMax = 2`, after startup and `trackEvent("a")` no
flush has occurred and one event is buffered; the second
`trackEvent("b")` triggers exactly one flush before it returns, sending
one keep-alive fetch payload whose events are exactly `["a", "b"]` in
order with sequence numbers 1 and 2, and leaving the queue empty with a
zero byte counter. -/
theorem scenario_batch_threshold_flush (rand : ℚ) (h1 : rand < 1) :
    (runC6a rand).map (fun w => (w.attempts, queueLenOf w)) = Except.ok ([], 1) ∧
    (runC6b rand).map
        (fun w =>
          (w.attempts.map (fun a => (a.via, a.payload.events.map RumEvent.name,
              a.payload.events.map RumEvent.seq)),
            queueLenOf w, queueBytesOf w)) =
      Except.ok ([(Transport.fetchKeepAlive, ["a", "b"], [1, 2])], 0, 0) := by
  have hd : decide (rand < (1 : ℚ)) = true := decide_eq_true h1
  constructor
  · simp [runC6a, startRum, startRumBase, envR, envDemo, cfgC6, world0, applyDefaults,
      getOrCreateDeviceId, loadOrCreateSession, trackEvent, dispatch, enqueue,
      flushQueue, safeJsonSize, baseContext, computeNormalizedPath,
      setupLifecycle, attachErrorHandlers, scheduleFlush, szConst, queueLenOf,
      DEFAULT_MAX_QUEUE_BYTES, DEFAULT_BATCH_MAX, Except.bind, Except.map, hd]
  · simp [runC6b, runC6a, startRum, startRumBase, envR, envDemo, cfgC6, world0, applyDefaults,
      getOrCreateDeviceId, loadOrCreateSession, trackEvent, dispatch, enqueue,
      flushQueue, safeJsonSize, baseContext, computeNormalizedPath, mkPayload,
      setupLifecycle, attachErrorHandlers, scheduleFlush, szConst, queueLenOf,
      queueBytesOf, DEFAULT_MAX_QUEUE_BYTES, DEFAULT_BATCH_MAX, Except.bind, Except.map, hd]

/-- Witness for C6 at the concrete draw 0. -/
theorem scenario_batch_threshold_flush_witness :
    ((0 : ℚ) < 1) ∧
    (runC6b 0).map (fun w => queueLenOf w) = Except.ok 0 :=
  ⟨by norm_num,
    by
      have h := (scenario_batch_threshold_flush 0 (by norm_num)).2
      have h2 := congrArg (Except.map (fun p => p.2.1)) h
      simpa [Except.map] using h2⟩

/-! ## C3 — hard byte cap on the queue -/

/-- Characterization of one `flushQueue` call: either it is the identity
(no pipeline, or empty queue), or it empties the queue and byte counter,
records the drained batch once, and appends at least one transport
attempt carrying exactly that batch (exactly one attempt when the beacon
call does not raise). -/
theorem flushQueue_shape (b : Bool) (env : Env) (w : World) :
    flushQueue b env w = w ∨
    ∃ st new, w.cur = some st ∧ st.queue ≠ [] ∧
      (∀ a ∈ new, a.payload = mkPayload env st) ∧ new ≠ [] ∧
      (b = false ∨ env.beaconThrows = false → ∃ a, new = [a]) ∧
      flushQueue b env w =
        { w with cur := some { st with queue := [], queueBytes := 0 }
                 drained := w.drained ++ st.queue
                 attempts := w.attempts ++ new } := by
  rcases hcur : w.cur with _ | st
  · left; simp [flushQueue, hcur]
  · rcases hq : st.queue with _ | ⟨e, rest⟩
    · left; simp [flushQueue, hcur, hq]
    · right
      have hq2 : st.queue.isEmpty = false := by simp [hq]
      by_cases hbb : (b = true ∧ env.beaconAvailable = true)
      · by_cases hbt : env.beaconThrows = true
        · refine ⟨st, [{ via := Transport.beacon, payload := mkPayload env st },
              { via := Transport.fetchKeepAlive, payload := mkPayload env st }],
              rfl, by simp [hq], by simp, by simp, ?_, ?_⟩
          · rintro (hb | hnt)
            · exact absurd hbb.1 (by simp [hb])
            · exact absurd hbt (by simp [hnt])
          · simp [flushQueue, hcur, hq2, hbb, hbt]
        · refine ⟨st, [{ via := Transport.beacon, payload := mkPayload env st }],
              rfl, by simp [hq], by simp, by simp, fun _ => ⟨_, rfl⟩, ?_⟩
          simp [flushQueue, hcur, hq2, hbb, hbt]
      · refine ⟨st, [{ via := Transport.fetchKeepAlive, payload := mkPayload env st }],
            rfl, by simp [hq], by simp, by simp, fun _ => ⟨_, rfl⟩, ?_⟩
        simp [flushQueue, hcur, hq2, hbb]

/-- The byte-accounting invariant of the running pipeline: the byte
counter never exceeds the configured cap, and an empty queue has a zero
byte counter. -/
def bytesInv (w : World) : Prop :=
  ∀ st, w.cur = some st →
    st.queueBytes ≤ st.config.maxQueueBytes ∧ (st.queue = [] → st.queueBytes = 0)

/-- A flush preserves the byte-accounting invariant. -/
theorem flushQueue_bytesInv (b : Bool) (env : Env) (w : World) (h : bytesInv w) :
    bytesInv (flushQueue b env w) := by
  rcases flushQueue_shape b env w with heq | ⟨st, new, hcur, hne, hpl, hnn, hone, heq⟩
  · rwa [heq]
  · intro st2 hst2
    rw [heq] at hst2
    cases hst2
    exact ⟨Nat.zero_le _, fun _ => rfl⟩

/-- An enqueue preserves the byte-accounting invariant: this is the hard
byte ceiling at the heart of C3. -/
theorem enqueue_bytesInv (env : Env) (ev : RumEvent) (w : World) (h : bytesInv w) :
    bytesInv (enqueue env ev w) := by
  have hflush : bytesInv (flushQueue false env w) := flushQueue_bytesInv false env w h
  unfold enqueue
  split
  · exact h
  · rename_i st hcur
    split
    · exact h
    · have hW1 : bytesInv
          (if ¬ safeJsonSize (some st) (st.queueBytes + env.sz ev) then
            flushQueue false env w else w) := by
        split
        · exact hflush
        · exact h
      dsimp only
      generalize hgen : (if ¬ safeJsonSize (some st) (st.queueBytes + env.sz ev) then
          flushQueue false env w else w) = w1 at hW1 ⊢
      split
      · exact hW1
      · rename_i st1 hcur1
        split
        · exact hW1
        · rename_i hfit
          have hle : st1.queueBytes + env.sz ev ≤ st1.config.maxQueueBytes := by
            have hfit2 : safeJsonSize (some st1) (st1.queueBytes + env.sz ev) = true := by
              by_contra hc
              exact hfit (by simpa using hc)
            simpa [safeJsonSize] using hfit2
          have hw2 : bytesInv
              { w1 with cur := some { st1 with
                  queue := st1.queue ++ [ev], queueBytes := st1.queueBytes + env.sz ev } } := by
            intro st2 hst2
            cases hst2
            refine ⟨hle, ?_⟩
            intro hq
            exact absurd hq (by simp)
          split
          · exact flushQueue_bytesInv false env _ hw2
          · exact hw2

/-- Refreshing session activity never touches the pipeline state. -/
theorem refreshSessionActivity_cur (env : Env) (w : World) :
    (refreshSessionActivity env w).cur = w.cur := by
  unfold refreshSessionActivity
  split
  · rfl
  · split <;> rfl

/-- A successful dispatch preserves the byte-accounting invariant. -/
theorem dispatch_bytesInv (env : Env) (ev : RumEvent) (w w2 : World)
    (hd : dispatch env ev w = Except.ok w2) (h : bytesInv w) : bytesInv w2 := by
  unfold dispatch at hd
  split at hd
  · cases hd; exact h
  · split at hd
    · cases hd; exact enqueue_bytesInv env ev w h
    · split at hd
      · cases hd
      · cases hd; exact h
      · rename_i ev2 _
        cases hd; exact enqueue_bytesInv env ev2 w h

/-- A successful trackEvent preserves the byte-accounting invariant. -/
theorem trackEvent_bytesInv (env : Env) (name : String) (data : Option String) (w w2 : World)
    (ht : trackEvent env name data w = Except.ok w2) (h : bytesInv w) : bytesInv w2 := by
  unfold trackEvent at ht
  split at ht
  · cases ht; exact h
  · rename_i st hcur
    split at ht
    · cases ht; exact h
    · refine dispatch_bytesInv _ _ _ _ ht ?_
      intro st2 hst2
      cases hst2
      exact h st hcur

/-- A successful trackError preserves the byte-accounting invariant. -/
theorem trackError_bytesInv (env : Env) (msg : String) (w w2 : World)
    (ht : trackError env msg w = Except.ok w2) (h : bytesInv w) : bytesInv w2 := by
  unfold trackError at ht
  split at ht
  · cases ht; exact h
  · rename_i st hcur
    split at ht
    · cases ht; exact h
    · refine dispatch_bytesInv _ _ _ _ ht ?_
      intro st2 hst2
      cases hst2
      exact h st hcur

/-- Inversion for a mapped Except value that came out ok. -/
theorem except_map_ok {A B : Type} (f : A → B) (x : Except Unit A) (b : B)
    (h : Except.map f x = Except.ok b) : ∃ a, x = Except.ok a ∧ b = f a := by
  cases x
  · simp [Except.map] at h
  · rename_i a
    refine ⟨a, rfl, ?_⟩
    simpa [Except.map] using h.symm

/-- A successful trackPageView preserves the byte-accounting invariant. -/
theorem trackPageView_bytesInv (env : Env) (extra : Option (List (String × String)))
    (navType : Option String) (w w2 : World)
    (ht : trackPageView env extra navType w = Except.ok w2) (h : bytesInv w) : bytesInv w2 := by
  unfold trackPageView at ht
  split at ht
  · cases ht; exact h
  · rename_i st hcur
    split at ht
    · cases ht; exact h
    · dsimp only at ht
      obtain ⟨w3, hdp, hb⟩ := except_map_ok _ _ _ ht
      have h3 : bytesInv w3 := by
        refine dispatch_bytesInv _ _ _ _ hdp ?_
        intro st2 hst2
        cases hst2
        exact h st hcur
      subst hb
      intro st2 hst2
      exact h3 st2 hst2

/-- One successful public-API interaction preserves the byte-accounting
invariant. -/
theorem runOp_bytesInv (env : Env) (op : Op) (w w2 : World)
    (hr : runOp env op w = Except.ok w2) (h : bytesInv w) : bytesInv w2 := by
  cases op with
  | opTrackPageView => exact trackPageView_bytesInv env none none w w2 hr h
  | opTrackEvent name data => exact trackEvent_bytesInv env name data w w2 hr h
  | opTrackError msg => exact trackError_bytesInv env msg w w2 hr h
  | opIdentify uid traits =>
    cases hr
    unfold identify
    split
    · exact h
    · rename_i st hcur
      intro st2 hst2
      cases hst2
      exact h st hcur
  | opSetContext extra =>
    cases hr
    unfold setContext
    split
    · exact h
    · rename_i st hcur
      intro st2 hst2
      cases hst2
      exact h st hcur
  | opFlush =>
    cases hr
    exact flushQueue_bytesInv false env w h
  | opTimerTick =>
    cases hr
    exact flushQueue_bytesInv false env w h
  | opPageHide =>
    cases hr
    exact flushQueue_bytesInv true env w h
  | opUnload =>
    cases hr
    refine flushQueue_bytesInv true env _ ?_
    intro st2 hst2
    rw [refreshSessionActivity_cur] at hst2
    exact h st2 hst2

/-- A successful run of interactions preserves the byte-accounting
invariant. -/
theorem runOps_bytesInv (env : Env) (ops : List Op) (w w2 : World)
    (hr : runOps env ops w = Except.ok w2) (h : bytesInv w) : bytesInv w2 := by
  induction ops generalizing w with
  | nil =>
    cases hr
    exact h
  | cons op rest ih =>
    unfold runOps at hr
    split at hr
    · cases hr
    · rename_i w1 hop
      exact ih w1 hr (runOp_bytesInv env op w w1 hop h)

/-- Embedding of `getOrCreateDeviceId` changes at most the persisted device id. -/
theorem getOrCreateDeviceId_effects (env : Env) (w : World) :
    (getOrCreateDeviceId env w).2.attempts = w.attempts ∧
    (getOrCreateDeviceId env w).2.drained = w.drained ∧
    (getOrCreateDeviceId env w).2.cur = w.cur ∧
    (getOrCreateDeviceId env w).2.pendingNormalizer = w.pendingNormalizer ∧
    (getOrCreateDeviceId env w).2.routeManifestReady = w.routeManifestReady := by
  unfold getOrCreateDeviceId
  split
  · exact ⟨rfl, rfl, rfl, rfl, rfl⟩
  · split <;> exact ⟨rfl, rfl, rfl, rfl, rfl⟩

/-- Embedding of `loadOrCreateSession` changes at most the persisted session and the
draw counter. -/
theorem loadOrCreateSession_effects (env : Env) (sr : ℚ) (ttl : Int) (w : World) :
    (loadOrCreateSession env sr ttl w).2.attempts = w.attempts ∧
    (loadOrCreateSession env sr ttl w).2.drained = w.drained ∧
    (loadOrCreateSession env sr ttl w).2.cur = w.cur ∧
    (loadOrCreateSession env sr ttl w).2.pendingNormalizer = w.pendingNormalizer ∧
    (loadOrCreateSession env sr ttl w).2.routeManifestReady = w.routeManifestReady := by
  unfold loadOrCreateSession
  split
  · exact ⟨rfl, rfl, rfl, rfl, rfl⟩
  · split
    · split <;> exact ⟨rfl, rfl, rfl, rfl, rfl⟩
    · exact ⟨rfl, rfl, rfl, rfl, rfl⟩

/-- The base startup produces a running pipeline with an empty queue, a
zero byte counter, sequence counter 0, the resolved configuration, and no
new transport activity. -/
theorem startRumBase_facts (env : Env) (cfg : RumConfigInput) (w : World) :
    ∃ st, (startRumBase env cfg w).cur = some st ∧ st.queue = [] ∧ st.queueBytes = 0 ∧
      st.seq = 0 ∧ st.config = applyDefaults cfg w.pendingNormalizer ∧
      (startRumBase env cfg w).attempts = w.attempts ∧
      (startRumBase env cfg w).drained = w.drained := by
  obtain ⟨ha1, hd1, _, hp1, _⟩ := getOrCreateDeviceId_effects env w
  unfold startRumBase
  dsimp only
  rcases hdev : getOrCreateDeviceId env w with ⟨dev, w1⟩
  rw [hdev] at ha1 hd1 hp1
  obtain ⟨ha2, hd2, _, _, _⟩ := loadOrCreateSession_effects env
    (applyDefaults cfg w.pendingNormalizer).sampleRate
    (applyDefaults cfg w.pendingNormalizer).sessionTtlMs w1
  rcases hsess : loadOrCreateSession env (applyDefaults cfg w.pendingNormalizer).sampleRate
      (applyDefaults cfg w.pendingNormalizer).sessionTtlMs w1 with ⟨sess, w2⟩
  rw [hsess] at ha2 hd2
  dsimp only
  split
  · exact ⟨_, rfl, rfl, rfl, rfl, rfl, ha2.trans ha1, hd2.trans hd1⟩
  · exact ⟨_, rfl, rfl, rfl, rfl, rfl, ha2.trans ha1, hd2.trans hd1⟩

/-- A successful first start is the base startup followed by one of: no
initial page view, a deferred initial page view, or a synchronous
initial page view. -/
theorem startRum_cases (env : Env) (cfg : RumConfigInput) (w : World) (s : World × RumHandle)
    (hw : w.cur = none) (hs : startRum env cfg w = Except.ok s) :
    s.1 = startRumBase env cfg w ∨
    s.1 = { startRumBase env cfg w with deferredInitialPV := true } ∨
    trackPageView env none none (startRumBase env cfg w) = Except.ok s.1 := by
  unfold startRum at hs
  rw [hw] at hs
  dsimp only at hs
  split at hs
  · exact Or.inl (congrArg Prod.fst (Except.ok.inj hs)).symm
  · split at hs
    · split at hs
      · rcases hdp : trackPageView env none none (startRumBase env cfg w) with e | w6
        · rw [hdp] at hs
          simp [Except.map] at hs
        · rw [hdp] at hs
          simp only [Except.map] at hs
          refine Or.inr (Or.inr ?_)
          have h6 : w6 = s.1 := congrArg Prod.fst (Except.ok.inj hs)
          rw [h6]
      · exact Or.inr (Or.inl (congrArg Prod.fst (Except.ok.inj hs)).symm)
    · exact Or.inl (congrArg Prod.fst (Except.ok.inj hs)).symm

/-- Startup establishes the byte-accounting invariant. -/
theorem startRum_bytesInv (env : Env) (cfg : RumConfigInput) (w : World) (s : World × RumHandle)
    (hw : w.cur = none) (hs : startRum env cfg w = Except.ok s) : bytesInv s.1 := by
  obtain ⟨st, hcur, hq, hb, _, _, _, _⟩ := startRumBase_facts env cfg w
  have hbase : bytesInv (startRumBase env cfg w) := by
    intro st2 hst2
    rw [hcur] at hst2
    cases hst2
    rw [hb]
    exact ⟨Nat.zero_le _, fun _ => rfl⟩
  rcases startRum_cases env cfg w s hw hs with h | h | h
  · rwa [h]
  · rw [h]
    intro st2 hst2
    exact hbase st2 hst2
  · exact trackPageView_bytesInv _ _ _ _ _ h hbase

/-- An event larger than the whole byte cap forces a flush and is then
dropped: the enqueue is exactly the forced flush. -/
theorem enqueue_oversized_drops (env : Env) (ev : RumEvent) (w : World) (st : InternalState)
    (hcur : w.cur = some st) (hsamp : st.sampled = true)
    (hbig : st.config.maxQueueBytes < env.sz ev) :
    enqueue env ev w = flushQueue false env w := by
  have hover : ¬ safeJsonSize (some st) (st.queueBytes + env.sz ev) = true := by
    simp only [safeJsonSize, decide_eq_true_eq]
    omega
  unfold enqueue
  rw [hcur]
  dsimp only
  rw [if_neg (by simp [hsamp]), if_pos hover]
  rcases flushQueue_shape false env w with heq | ⟨st0, new, hcur0, hne0, _, _, _, heq⟩
  · rw [heq, hcur]
    dsimp only
    rw [if_pos hover]
  · have hst0 : st = st0 := by
      rw [hcur] at hcur0
      exact Option.some.inj hcur0
    subst hst0
    rw [heq]
    dsimp only
    have hover2 : ¬ safeJsonSize
        (some { st with queue := ([] : List RumEvent), queueBytes := 0 })
        (0 + env.sz ev) = true := by
      simp only [safeJsonSize, decide_eq_true_eq]
      omega
    rw [if_pos hover2]

/-- C3: after a first start, for every sequence of public-API
interactions that returns normally, the buffered byte counter is at most
the configured byte cap at the moment each call returns; moreover an
event whose own serialized size exceeds the cap first triggers an
immediate flush and is then dropped rather than appended (the enqueue
equals the forced flush). -/
theorem queue_bytes_never_exceed_cap (env env2 : Env) (cfg : RumConfigInput) (w : World)
    (s : World × RumHandle) (ops : List Op) (w1 : World)
    (hw : w.cur = none)
    (hstart : startRum env cfg w = Except.ok s)
    (hrun : runOps env2 ops s.1 = Except.ok w1) :
    queueBytesOf w1 ≤ byteCapOf w1 ∧
    (∀ st ev, w1.cur = some st → st.sampled = true →
      st.config.maxQueueBytes < env2.sz ev →
      enqueue env2 ev w1 = flushQueue false env2 w1) := by
  have hinv : bytesInv w1 :=
    runOps_bytesInv env2 ops s.1 w1 hrun (startRum_bytesInv env cfg w s hw hstart)
  constructor
  · rcases hc : w1.cur with _ | st
    · simp [queueBytesOf, byteCapOf, hc]
    · simpa [queueBytesOf, byteCapOf, hc] using (hinv st hc).1
  · intro st ev hc hsamp hbig
    exact enqueue_oversized_drops env2 ev w1 st hc hsamp hbig

/-- Witness for C3 at concrete inputs: the pipeline is started with the
example configuration and runs two trackEvent interactions; the byte
counter stays within the cap. -/
theorem queue_bytes_never_exceed_cap_witness :
    world0.cur = none ∧
    startRum (envR 0) cfgC6 world0 =
      Except.ok ({ startRumBase (envR 0) cfgC6 world0 with deferredInitialPV := true },
        RumHandle.publicAPI) ∧
    queueBytesOf { startRumBase (envR 0) cfgC6 world0 with deferredInitialPV := true } ≤
      byteCapOf { startRumBase (envR 0) cfgC6 world0 with deferredInitialPV := true } :=
  ⟨rfl, by rfl,
    (queue_bytes_never_exceed_cap (envR 0) (envR 0) cfgC6 world0
      ({ startRumBase (envR 0) cfgC6 world0 with deferredInitialPV := true },
        RumHandle.publicAPI) [] _ rfl (by rfl) (by rfl)).1⟩

/-! ## C4 — ordering of emitted sequence numbers -/

/-- The hook (when configured) preserves the sequence number of every
event it lets through. -/
def hookOK (c : RumConfig) : Prop :=
  ∀ f, c.beforeSend = some f → ∀ e e2, f e = Except.ok (some e2) → e2.seq = e.seq

/-- The ordering invariant: the drained-then-buffered sequence numbers
form a strictly increasing chain bounded by the sequence counter, every
transported event is a drained event (no flush duplicated a batch yet),
and the configured hook preserves sequence numbers. -/
def seqInv (w : World) : Prop :=
  List.Chain' (· < ·) (emittedSeqsAll w) ∧
  transportedEvents w = w.drained ∧
  ∀ st, w.cur = some st →
    (∀ n ∈ emittedSeqsAll w, n ≤ st.seq) ∧ hookOK st.config

/-- Embedding of `refreshSessionActivity` touches only the persisted session entry. -/
theorem refreshSessionActivity_effects (env : Env) (w : World) :
    (refreshSessionActivity env w).cur = w.cur ∧
    (refreshSessionActivity env w).attempts = w.attempts ∧
    (refreshSessionActivity env w).drained = w.drained := by
  unfold refreshSessionActivity
  split
  · exact ⟨rfl, rfl, rfl⟩
  · split <;> exact ⟨rfl, rfl, rfl⟩

/-- Effect of one flush on the emission-order bookkeeping: the combined
drained-then-buffered sequence list, the sequence counter and the
configuration are untouched, and (unless a beacon-mode flush had its
beacon call raise) transported events remain exactly the drained
events. -/
theorem flushQueue_seqFacts (b : Bool) (env : Env) (w : World) :
    emittedSeqsAll (flushQueue b env w) = emittedSeqsAll w ∧
    (flushQueue b env w).cur.map InternalState.seq = w.cur.map InternalState.seq ∧
    (flushQueue b env w).cur.map InternalState.config = w.cur.map InternalState.config ∧
    ((b = false ∨ env.beaconThrows = false) → transportedEvents w = w.drained →
      transportedEvents (flushQueue b env w) = (flushQueue b env w).drained) := by
  rcases flushQueue_shape b env w with heq | ⟨st, new, hcur, hne, hpl, hnn, hone, heq⟩
  · rw [heq]
    exact ⟨rfl, rfl, rfl, fun _ h => h⟩
  · rw [heq]
    refine ⟨?_, ?_, ?_, ?_⟩
    · simp [emittedSeqsAll, drainedSeqs, queueSeqs, hcur]
    · simp [hcur]
    · simp [hcur]
    · intro hb htr
      obtain ⟨a, ha⟩ := hone hb
      have hpa : a.payload = mkPayload env st := hpl a (by simp [ha])
      simp [transportedEvents, ha, hpa, mkPayload]
      rw [show (w.attempts.map Attempt.payload).flatMap Payload.events =
        transportedEvents w from rfl, htr]

/-- Effect of one enqueue on the emission-order bookkeeping: the
drained-then-buffered sequence list is either unchanged (event dropped)
or extended by exactly the event's own sequence number; the sequence
counter and configuration are untouched; transported events remain the
drained events. -/
theorem enqueue_seqFacts (env : Env) (ev : RumEvent) (w : World) :
    (emittedSeqsAll (enqueue env ev w) = emittedSeqsAll w ∨
      emittedSeqsAll (enqueue env ev w) = emittedSeqsAll w ++ [ev.seq]) ∧
    (enqueue env ev w).cur.map InternalState.seq = w.cur.map InternalState.seq ∧
    (enqueue env ev w).cur.map InternalState.config = w.cur.map InternalState.config ∧
    (transportedEvents w = w.drained →
      transportedEvents (enqueue env ev w) = (enqueue env ev w).drained) := by
  unfold enqueue
  split
  · exact ⟨Or.inl rfl, rfl, rfl, fun h => h⟩
  · rename_i st hcur
    split
    · exact ⟨Or.inl rfl, rfl, rfl, fun h => h⟩
    · have hW1 : emittedSeqsAll
          (if ¬ safeJsonSize (some st) (st.queueBytes + env.sz ev) then
            flushQueue false env w else w) = emittedSeqsAll w ∧
          (if ¬ safeJsonSize (some st) (st.queueBytes + env.sz ev) then
            flushQueue false env w else w).cur.map InternalState.seq =
            w.cur.map InternalState.seq ∧
          (if ¬ safeJsonSize (some st) (st.queueBytes + env.sz ev) then
            flushQueue false env w else w).cur.map InternalState.config =
            w.cur.map InternalState.config ∧
          (transportedEvents w = w.drained →
            transportedEvents (if ¬ safeJsonSize (some st) (st.queueBytes + env.sz ev) then
              flushQueue false env w else w) =
            (if ¬ safeJsonSize (some st) (st.queueBytes + env.sz ev) then
              flushQueue false env w else w).drained) := by
        split
        · obtain ⟨h1, h2, h3, h4⟩ := flushQueue_seqFacts false env w
          exact ⟨h1, h2, h3, h4 (Or.inl rfl)⟩
        · exact ⟨rfl, rfl, rfl, fun h => h⟩
      dsimp only
      generalize hgen : (if ¬ safeJsonSize (some st) (st.queueBytes + env.sz ev) then
          flushQueue false env w else w) = w1 at hW1 ⊢
      obtain ⟨he1, hs1, hc1, ht1⟩ := hW1
      split
      · exact ⟨Or.inl he1, hs1, hc1, ht1⟩
      · rename_i st1 hcur1
        split
        · exact ⟨Or.inl he1, hs1, hc1, ht1⟩
        · have he2 : emittedSeqsAll { w1 with cur := some { st1 with
              queue := st1.queue ++ [ev], queueBytes := st1.queueBytes + env.sz ev } } =
              emittedSeqsAll w1 ++ [ev.seq] := by
            simp [emittedSeqsAll, drainedSeqs, queueSeqs, hcur1]
          have hs2 : ({ w1 with cur := some { st1 with
              queue := st1.queue ++ [ev], queueBytes := st1.queueBytes + env.sz ev } } : World).cur.map
              InternalState.seq = w.cur.map InternalState.seq := by
            rw [← hs1, hcur1]; rfl
          have hc2 : ({ w1 with cur := some { st1 with
              queue := st1.queue ++ [ev], queueBytes := st1.queueBytes + env.sz ev } } : World).cur.map
              InternalState.config = w.cur.map InternalState.config := by
            rw [← hc1, hcur1]; rfl
          split
          · obtain ⟨f1, f2, f3, f4⟩ := flushQueue_seqFacts false env
              { w1 with cur := some { st1 with
                queue := st1.queue ++ [ev], queueBytes := st1.queueBytes + env.sz ev } }
            refine ⟨Or.inr (f1.trans (by rw [he2, he1])), f2.trans hs2, f3.trans hc2, ?_⟩
            intro h
            exact f4 (Or.inl rfl) (ht1 h)
          · exact ⟨Or.inr (by rw [he2, he1]), hs2, hc2, fun h => ht1 h⟩

/-- A strictly increasing chain extended by a strict upper bound is
still a strictly increasing chain. -/
theorem chain_append_singleton {l : List Nat} {m : Nat}
    (hc : List.Chain' (· < ·) l) (hb : ∀ n ∈ l, n < m) :
    List.Chain' (· < ·) (l ++ [m]) := by
  rw [List.chain'_append]
  refine ⟨hc, List.chain'_singleton m, ?_⟩
  intro x hx y hy
  simp only [List.head?_cons, Option.mem_def, Option.some.injEq] at hy
  subst hy
  obtain ⟨hne, hxe⟩ := List.mem_getLast?_eq_getLast hx
  subst hxe
  exact hb _ (List.getLast_mem hne)

/-- Effect of one successful dispatch on the emission-order bookkeeping,
under a sequence-preserving hook. -/
theorem dispatch_seqFacts (env : Env) (ev : RumEvent) (w w2 : World) (st : InternalState)
    (hcur : w.cur = some st) (hhook : hookOK st.config)
    (hd : dispatch env ev w = Except.ok w2) :
    (emittedSeqsAll w2 = emittedSeqsAll w ∨
      emittedSeqsAll w2 = emittedSeqsAll w ++ [ev.seq]) ∧
    w2.cur.map InternalState.seq = w.cur.map InternalState.seq ∧
    w2.cur.map InternalState.config = w.cur.map InternalState.config ∧
    (transportedEvents w = w.drained → transportedEvents w2 = w2.drained) := by
  unfold dispatch at hd
  rw [hcur] at hd
  dsimp only at hd
  split at hd
  · cases hd
    exact enqueue_seqFacts env ev w
  · rename_i f hf
    split at hd
    · cases hd
    · cases hd
      exact ⟨Or.inl rfl, rfl, rfl, fun h => h⟩
    · rename_i ev2 hok
      cases hd
      have hseq : ev2.seq = ev.seq := hhook f hf ev ev2 hok
      rw [← hseq]
      exact enqueue_seqFacts env ev2 w

/-- A successful trackEvent preserves the ordering invariant. -/
theorem trackEvent_seqInv (env : Env) (name : String) (data : Option String) (w w2 : World)
    (ht : trackEvent env name data w = Except.ok w2) (h : seqInv w) : seqInv w2 := by
  obtain ⟨hchain, htr, hbound⟩ := h
  unfold trackEvent at ht
  split at ht
  · cases ht; exact ⟨hchain, htr, hbound⟩
  · rename_i st hcur
    split at ht
    · cases ht; exact ⟨hchain, htr, hbound⟩
    · dsimp only at ht
      have hemit : emittedSeqsAll
          ({ w with cur := some { st with seq := st.seq + 1 } } : World) = emittedSeqsAll w := by
        simp [emittedSeqsAll, drainedSeqs, queueSeqs, hcur]
      obtain ⟨hde, hds, hdc, hdt⟩ :=
        dispatch_seqFacts env _ _ w2 { st with seq := st.seq + 1 } rfl ((hbound st hcur).2) ht
      refine ⟨?_, hdt htr, ?_⟩
      · rcases hde with hde | hde
        · rw [hde, hemit]; exact hchain
        · rw [hde, hemit]
          refine chain_append_singleton hchain ?_
          intro n hn
          exact Nat.lt_succ_of_le ((hbound st hcur).1 n hn)
      · intro st2 hst2
        rw [hst2] at hds hdc
        have hseq2 : st2.seq = st.seq + 1 := Option.some.inj hds
        have hcfg2 : st2.config = st.config := Option.some.inj hdc
        constructor
        · intro n hn
          rcases hde with hde | hde
          · rw [hde, hemit] at hn
            rw [hseq2]
            exact Nat.le_succ_of_le ((hbound st hcur).1 n hn)
          · rw [hde, hemit] at hn
            rcases List.mem_append.mp hn with hn | hn
            · rw [hseq2]
              exact Nat.le_succ_of_le ((hbound st hcur).1 n hn)
            · simp only [List.mem_singleton] at hn
              rw [hn, hseq2]
        · rw [hcfg2]
          exact (hbound st hcur).2

/-- A successful trackError preserves the ordering invariant. -/
theorem trackError_seqInv (env : Env) (msg : String) (w w2 : World)
    (ht : trackError env msg w = Except.ok w2) (h : seqInv w) : seqInv w2 := by
  obtain ⟨hchain, htr, hbound⟩ := h
  unfold trackError at ht
  split at ht
  · cases ht; exact ⟨hchain, htr, hbound⟩
  · rename_i st hcur
    split at ht
    · cases ht; exact ⟨hchain, htr, hbound⟩
    · dsimp only at ht
      have hemit : emittedSeqsAll
          ({ w with cur := some { st with seq := st.seq + 1 } } : World) = emittedSeqsAll w := by
        simp [emittedSeqsAll, drainedSeqs, queueSeqs, hcur]
      obtain ⟨hde, hds, hdc, hdt⟩ :=
        dispatch_seqFacts env _ _ w2 { st with seq := st.seq + 1 } rfl ((hbound st hcur).2) ht
      refine ⟨?_, hdt htr, ?_⟩
      · rcases hde with hde | hde
        · rw [hde, hemit]; exact hchain
        · rw [hde, hemit]
          refine chain_append_singleton hchain ?_
          intro n hn
          exact Nat.lt_succ_of_le ((hbound st hcur).1 n hn)
      · intro st2 hst2
        rw [hst2] at hds hdc
        have hseq2 : st2.seq = st.seq + 1 := Option.some.inj hds
        have hcfg2 : st2.config = st.config := Option.some.inj hdc
        constructor
        · intro n hn
          rcases hde with hde | hde
          · rw [hde, hemit] at hn
            rw [hseq2]
            exact Nat.le_succ_of_le ((hbound st hcur).1 n hn)
          · rw [hde, hemit] at hn
            rcases List.mem_append.mp hn with hn | hn
            · rw [hseq2]
              exact Nat.le_succ_of_le ((hbound st hcur).1 n hn)
            · simp only [List.mem_singleton] at hn
              rw [hn, hseq2]
        · rw [hcfg2]
          exact (hbound st hcur).2

/-- A successful trackPageView preserves the ordering invariant. -/
theorem trackPageView_seqInv (env : Env) (extra : Option (List (String × String)))
    (navType : Option String) (w w2 : World)
    (ht : trackPageView env extra navType w = Except.ok w2) (h : seqInv w) : seqInv w2 := by
  obtain ⟨hchain, htr, hbound⟩ := h
  unfold trackPageView at ht
  split at ht
  · cases ht; exact ⟨hchain, htr, hbound⟩
  · rename_i st hcur
    split at ht
    · cases ht; exact ⟨hchain, htr, hbound⟩
    · dsimp only at ht
      obtain ⟨w3, hdp, hb3⟩ := except_map_ok _ _ _ ht
      have hemit : emittedSeqsAll
          ({ w with cur := some { st with seq := st.seq + 1 } } : World) = emittedSeqsAll w := by
        simp [emittedSeqsAll, drainedSeqs, queueSeqs, hcur]
      obtain ⟨hde, hds, hdc, hdt⟩ :=
        dispatch_seqFacts env _ _ w3 { st with seq := st.seq + 1 } rfl ((hbound st hcur).2) hdp
      subst hb3
      refine ⟨?_, hdt htr, ?_⟩
      · show List.Chain' (· < ·) (emittedSeqsAll w3)
        rcases hde with hde | hde
        · rw [hde, hemit]; exact hchain
        · rw [hde, hemit]
          refine chain_append_singleton hchain ?_
          intro n hn
          exact Nat.lt_succ_of_le ((hbound st hcur).1 n hn)
      · intro st2 hst2
        have hst2b : w3.cur = some st2 := hst2
        rw [hst2b] at hds hdc
        have hseq2 : st2.seq = st.seq + 1 := Option.some.inj hds
        have hcfg2 : st2.config = st.config := Option.some.inj hdc
        constructor
        · intro n hn
          have hn3 : n ∈ emittedSeqsAll w3 := hn
          rcases hde with hde | hde
          · rw [hde, hemit] at hn3
            rw [hseq2]
            exact Nat.le_succ_of_le ((hbound st hcur).1 n hn3)
          · rw [hde, hemit] at hn3
            rcases List.mem_append.mp hn3 with hn3 | hn3
            · rw [hseq2]
              exact Nat.le_succ_of_le ((hbound st hcur).1 n hn3)
            · simp only [List.mem_singleton] at hn3
              rw [hn3, hseq2]
        · rw [hcfg2]
          exact (hbound st hcur).2

/-- A flush preserves the ordering invariant (for a non-beacon flush, or
in an environment whose beacon call does not raise). -/
theorem flushQueue_seqInv (b : Bool) (env : Env) (w : World)
    (hok : b = false ∨ env.beaconThrows = false) (h : seqInv w) : seqInv (flushQueue b env w) := by
  obtain ⟨hchain, htr, hbound⟩ := h
  obtain ⟨h1, h2, h3, h4⟩ := flushQueue_seqFacts b env w
  refine ⟨by rw [h1]; exact hchain, h4 hok htr, ?_⟩
  intro st2 hst2
  rw [hst2] at h2 h3
  rcases hcur : w.cur with _ | st
  · rw [hcur] at h2
    simp at h2
  · rw [hcur] at h2 h3
    have hseq := Option.some.inj h2
    have hcfg := Option.some.inj h3
    refine ⟨?_, by rw [hcfg]; exact (hbound st hcur).2⟩
    intro n hn
    rw [h1] at hn
    rw [hseq]
    exact (hbound st hcur).1 n hn

/-- One successful public-API interaction preserves the ordering
invariant, in an environment whose beacon call does not raise. -/
theorem runOp_seqInv (env : Env) (op : Op) (w w2 : World) (hnb : env.beaconThrows = false)
    (hr : runOp env op w = Except.ok w2) (h : seqInv w) : seqInv w2 := by
  cases op with
  | opTrackPageView => exact trackPageView_seqInv env none none w w2 hr h
  | opTrackEvent name data => exact trackEvent_seqInv env name data w w2 hr h
  | opTrackError msg => exact trackError_seqInv env msg w w2 hr h
  | opIdentify uid traits =>
    cases hr
    obtain ⟨hchain, htr, hbound⟩ := h
    unfold identify
    split
    · exact ⟨hchain, htr, hbound⟩
    · rename_i st hcur
      have hemit : emittedSeqsAll { w with cur := some { st with
          user := some { id := uid, traits := traits } } } = emittedSeqsAll w := by
        simp [emittedSeqsAll, drainedSeqs, queueSeqs, hcur]
      refine ⟨by rw [hemit]; exact hchain, htr, ?_⟩
      intro st2 hst2
      cases hst2
      refine ⟨?_, (hbound st hcur).2⟩
      intro n hn
      rw [hemit] at hn
      exact (hbound st hcur).1 n hn
  | opSetContext extra =>
    cases hr
    obtain ⟨hchain, htr, hbound⟩ := h
    unfold setContext
    split
    · exact ⟨hchain, htr, hbound⟩
    · rename_i st hcur
      have hemit : emittedSeqsAll { w with cur := some { st with
          pageCtxExtra := mergeKV st.pageCtxExtra extra } } = emittedSeqsAll w := by
        simp [emittedSeqsAll, drainedSeqs, queueSeqs, hcur]
      refine ⟨by rw [hemit]; exact hchain, htr, ?_⟩
      intro st2 hst2
      cases hst2
      refine ⟨?_, (hbound st hcur).2⟩
      intro n hn
      rw [hemit] at hn
      exact (hbound st hcur).1 n hn
  | opFlush =>
    cases hr
    exact flushQueue_seqInv false env w (Or.inl rfl) h
  | opTimerTick =>
    cases hr
    exact flushQueue_seqInv false env w (Or.inl rfl) h
  | opPageHide =>
    cases hr
    exact flushQueue_seqInv true env w (Or.inr hnb) h
  | opUnload =>
    cases hr
    refine flushQueue_seqInv true env _ (Or.inr hnb) ?_
    obtain ⟨hc0, ha0, hd0⟩ := refreshSessionActivity_effects env w
    obtain ⟨hchain, htr, hbound⟩ := h
    have hemit : emittedSeqsAll (refreshSessionActivity env w) = emittedSeqsAll w := by
      simp [emittedSeqsAll, drainedSeqs, queueSeqs, hc0, hd0]
    have htr2 : transportedEvents (refreshSessionActivity env w) =
        (refreshSessionActivity env w).drained := by
      simp [transportedEvents, ha0, hd0]
      rw [show (w.attempts.map Attempt.payload).flatMap Payload.events =
        transportedEvents w from rfl, htr]
    refine ⟨by rw [hemit]; exact hchain, htr2, ?_⟩
    intro st2 hst2
    rw [hc0] at hst2
    refine ⟨?_, (hbound st2 hst2).2⟩
    intro n hn
    rw [hemit] at hn
    exact (hbound st2 hst2).1 n hn

/-- A successful run of interactions preserves the ordering invariant. -/
theorem runOps_seqInv (env : Env) (ops : List Op) (w w2 : World) (hnb : env.beaconThrows = false)
    (hr : runOps env ops w = Except.ok w2) (h : seqInv w) : seqInv w2 := by
  induction ops generalizing w with
  | nil =>
    cases hr
    exact h
  | cons op rest ih =>
    unfold runOps at hr
    split at hr
    · cases hr
    · rename_i w1 hop
      exact ih w1 hr (runOp_seqInv env op w w1 hnb hop h)

/-- A successful first start from a world with no transport history
establishes the ordering invariant, provided the configured hook
preserves sequence numbers. -/
theorem startRum_seqInv (env : Env) (cfg : RumConfigInput) (w : World) (s : World × RumHandle)
    (hw : w.cur = none) (ha : w.attempts = []) (hd : w.drained = [])
    (hhook : ∀ f, cfg.beforeSend = some f → ∀ e e2, f e = Except.ok (some e2) → e2.seq = e.seq)
    (hs : startRum env cfg w = Except.ok s) : seqInv s.1 := by
  obtain ⟨st, hcur, hq, hb, hseq0, hcfg, hatt, hdr⟩ := startRumBase_facts env cfg w
  have hbase : seqInv (startRumBase env cfg w) := by
    refine ⟨?_, ?_, ?_⟩
    · simp [emittedSeqsAll, drainedSeqs, queueSeqs, hcur, hq, hdr, hd]
    · simp [transportedEvents, hatt, ha, hdr, hd]
    · intro st2 hst2
      rw [hcur] at hst2
      cases hst2
      constructor
      · intro n hn
        simp [emittedSeqsAll, drainedSeqs, queueSeqs, hcur, hq, hdr, hd] at hn
      · rw [hcfg]
        intro f hf e e2 hok
        exact hhook f hf e e2 hok
  rcases startRum_cases env cfg w s hw hs with hcase | hcase | hcase
  · rwa [hcase]
  · rw [hcase]
    obtain ⟨hchain, htr, hbound⟩ := hbase
    exact ⟨hchain, htr, hbound⟩
  · exact trackPageView_seqInv env none none _ _ hcase hbase

/-- C4 amended, monotonicity: after a first start from a world with no
transport history, for every successful sequence of public-API
interactions — in an environment whose beacon call does not raise, and
with a beforeSend hook (if any) that preserves sequence numbers — the
sequence numbers of the transported events are strictly increasing in
emission order. -/
theorem transported_seqs_strictly_increasing (env env2 : Env) (cfg : RumConfigInput) (w : World)
    (s : World × RumHandle) (ops : List Op) (w1 : World)
    (hw : w.cur = none) (ha : w.attempts = []) (hd : w.drained = [])
    (hhook : ∀ f, cfg.beforeSend = some f → ∀ e e2, f e = Except.ok (some e2) → e2.seq = e.seq)
    (hnb : env2.beaconThrows = false)
    (hstart : startRum env cfg w = Except.ok s)
    (hrun : runOps env2 ops s.1 = Except.ok w1) :
    List.Chain' (· < ·) (transportedSeqs w1) := by
  have hinv : seqInv w1 :=
    runOps_seqInv env2 ops s.1 w1 hnb hrun
      (startRum_seqInv env cfg w s hw ha hd hhook hstart)
  obtain ⟨hchain, htr, _⟩ := hinv
  have heq : transportedSeqs w1 = drainedSeqs w1 := by
    simp [transportedSeqs, drainedSeqs, htr]
  rw [heq]
  have hchain2 : List.Chain' (· < ·) (drainedSeqs w1 ++ queueSeqs w1) := hchain
  exact (List.chain'_append.mp hchain2).1

/-- Witness for C4's amended statement: a concrete first start with no
hook and an empty interaction run yields a strictly increasing (empty)
transported-sequence chain. -/
theorem transported_seqs_strictly_increasing_witness :
    List.Chain' (· < ·) (transportedSeqs
      { startRumBase (envR 0) cfgC6 world0 with deferredInitialPV := true }) :=
  transported_seqs_strictly_increasing (envR 0) (envR 0) cfgC6 world0
    ({ startRumBase (envR 0) cfgC6 world0 with deferredInitialPV := true },
      RumHandle.publicAPI)
    [] _ rfl rfl rfl (fun f hf => nomatch hf) rfl (by rfl) (by rfl)

/-- A beforeSend hook that drops (returns null for) every custom event
named `"b"` and passes everything else through unchanged. -/
def hookDropB : RumEvent → HookResult :=
  fun ev => if ev.name = "b" then Except.ok none else Except.ok (some ev)

/-- Configuration with full sampling, batch size 3, and the dropping
hook installed. -/
def cfgDropB : RumConfigInput :=
  { sampleRate := some 1, batchMax := some 3, beforeSend := some hookDropB }

/-- Start the pipeline with the dropping hook, track `"a"`, `"b"`,
`"c"`, then flush. -/
def runC4 : Except Unit World :=
  (startRum (envR 0) cfgDropB world0).bind (fun s =>
    (trackEvent (envR 0) "a" none s.1).bind (fun w =>
      (trackEvent (envR 0) "b" none w).bind (fun w2 =>
        (trackEvent (envR 0) "c" none w2).map (fun w3 => apiFlush (envR 0) w3))))

/-- Counterexample to C4 as stated: with a beforeSend hook that drops
the event named `"b"`, the three dispatches consume sequence numbers 1,
2, 3 but the transported events carry sequence numbers 1 and 3 — the
emitted sequence is strictly increasing yet NOT gapless (3 is not 1 +
1), because a dropped event still consumes a sequence number. -/
theorem emitted_seqs_not_gapless :
    Except.map transportedSeqs runC4 = Except.ok [1, 3] ∧
    ¬ List.Chain' (fun a b : Nat => b = a + 1) [1, 3] := by
  constructor
  · rfl
  · intro hch
    have h2 := List.chain'_cons.mp hch
    omega

end WatchlogRum
